import Mathlib

/-!
Verification of the paged election-verification pipeline of
`frame/election-provider-multi-block/src/verifier/pallet.rs`.

The pallet's storage items are modelled as fields of an explicit
`VerifierState` record; storage maps keyed by page index become
association lists.  Machine integers (`ExtendedBalance = u128`) are
modelled as `Nat` with explicit saturation at `2 ^ 128 - 1` where the
source uses `saturating_add` / `saturating_mul`.  Fallible code returns
`Except`.  Components of this repository that are referenced by
`pallet.rs` but are not part of the sources (the `sp-npos-elections`
score comparator and support evaluator, the solution codec of the
`NposSolution` macro, the snapshot getters and the page helpers of the
outer pallet) are modelled from the spec and are marked as such in
their doc comments.
-/

/-- Saturation bound of `ExtendedBalance` (`u128::MAX`). -/
def u128max : Nat := 2 ^ 128 - 1

/-- Saturating addition on `ExtendedBalance`. -/
def satAdd (a b : Nat) : Nat := min (a + b) u128max

/-- Saturating multiplication on `ExtendedBalance`. -/
def satMul (a b : Nat) : Nat := min (a * b) u128max

/-- An election score: the 3-tuple `[minimal_stake, sum_stake, sum_stake_squared]`
(`ElectionScore = [ExtendedBalance; 3]` in `sp-npos-elections`). -/
structure ElectionScore where
  minimalStake : Nat
  sumStake : Nat
  sumStakeSquared : Nat
  deriving DecidableEq, Repr

/-- Fuelled division loop: subtract `d` from `n` at most `fuel` times.
Structural recursion on the fuel keeps kernel reduction on symbolic
arguments cheap, unlike the well-founded recursion of `Nat.div`. -/
def divFloorGo (d : Nat) : Nat → Nat → Nat
  | 0, _ => 0
  | fuel + 1, n => if n < d then 0 else divFloorGo d fuel (n - d) + 1

/-- Floor division by repeated subtraction; agrees with `Nat.div`
(`divFloor_eq_div` below). -/
def divFloor (n d : Nat) : Nat := if d = 0 then 0 else divFloorGo d n n

/-- Modelled from the spec: `Perbill::mul_ceil` (sp-arithmetic is not under
src/).  `p` is a fraction in parts-per-billion; the result is
`ceil (p * x / 10^9)`. -/
def perbillMulCeil (p x : Nat) : Nat := divFloor (p * x + 999999999) 1000000000

/-- Modelled from the spec: threshold comparison (`TresholdOrd::tcmp` of
sp-npos-elections is not under src/).  Values within `thr` of each other
compare equal; a zero threshold is an exact comparison. -/
def tcmp (a b thr : Nat) : Ordering :=
  if thr = 0 then compare a b
  else if b + thr < a then Ordering.gt
  else if a + thr < b then Ordering.lt
  else Ordering.eq

/-- Modelled from the spec: `sp_npos_elections::is_score_better` (not under
src/), the relative-fraction comparator over the 3-tuple, lexicographic
with threshold tolerance: the first two components are
bigger-is-better, the third is smaller-is-better, and `eps` (in
parts-per-billion) is the relative tolerance. -/
def is_score_better (this that : ElectionScore) (eps : Nat) : Bool :=
  let g0 : Bool := decide (that.minimalStake ≤ this.minimalStake)
  let g1 : Bool := decide (that.sumStake ≤ this.sumStake)
  match tcmp this.minimalStake that.minimalStake (perbillMulCeil eps that.minimalStake),
        tcmp this.sumStake that.sumStake (perbillMulCeil eps that.sumStake),
        tcmp this.sumStakeSquared that.sumStakeSquared (perbillMulCeil eps that.sumStakeSquared) with
  | Ordering.gt, _, _ => true
  | Ordering.eq, Ordering.gt, _ => g0
  | Ordering.eq, Ordering.eq, Ordering.lt => g0 && g1
  | _, _, _ => false

/-- One aggregated backing for an elected target: total stake plus the
contributing voters (`sp_npos_elections::Support`). -/
structure Support where
  total : Nat
  voters : List (Nat × Nat)
  deriving DecidableEq, Repr

/-- The supports of one page: list of `(target, Support)` pairs. -/
abbrev Supports := List (Nat × Support)

/-- Association-list lookup for a storage map keyed by `Nat`. -/
def mget {α : Type} (m : List (Nat × α)) (k : Nat) : Option α :=
  match m.find? (fun p => p.1 == k) with
  | some p => some p.2
  | none => none

/-- Association-list insert for a storage map keyed by `Nat`: last write
wins per key, as for a storage map `insert`. -/
def mput {α : Type} (m : List (Nat × α)) (k : Nat) (v : α) : List (Nat × α) :=
  (k, v) :: m.filter (fun p => p.1 != k)

/-- Modelled from the spec: one page of a `PartialSolution`, "a compact
encoding of (voter-index → one-or-more (target-index,
proportional-weight) pairs), where indices are page-local into the
snapshot" (the concrete `SolutionOf` codec of the `NposSolution` macro
is not under src/).  Weights are parts-per-billion of the voter's
stake. -/
structure PartialSolution where
  votes : List (Nat × List (Nat × Nat))
  deriving DecidableEq, Repr

/-- The `Default::default()` solution used for a missing page: no votes. -/
def defaultSolution : PartialSolution := ⟨[]⟩

/-- One snapshot voter: identity, stake, and eligible targets. -/
structure Voter where
  who : Nat
  stake : Nat
  targets : List Nat
  deriving DecidableEq, Repr

/-- Modelled from the spec: the external snapshot, "an ordered sequence of
target identities, and a paged ordered sequence of (voter identity,
stake, list of eligible target indices) tuples", plus the desired
target count (the `Snapshot` wrapper of the outer pallet is not under
src/).  `targets` is `none` when the target snapshot page is missing,
and a voter page absent from `voters` is a missing voter snapshot. -/
structure Snapshot where
  targets : Option (List Nat)
  voters : List (Nat × List Voter)
  desiredTargets : Option Nat
  deriving DecidableEq, Repr

/-- Typed feasibility rejections (`FeasibilityError` of the verifier
module, with the nested npos-election decode and conversion errors
flattened into this one inductive). -/
inductive FeasibilityError where
  | snapshotUnavailable
  | invalidWinner
  | invalidVoter
  | invalidVote
  | scoreTooLow
  | solutionInvalidIndex
  | arithmetic
  | invalidSupportEdge
  deriving DecidableEq, Repr

/-- One identity-based assignment: a voter and its weight distribution over
target identities (ratio weights before staking, absolute stakes
after). -/
structure Assignment where
  who : Nat
  distribution : List (Nat × Nat)
  deriving DecidableEq, Repr

/-- Insert into a sorted list of naturals. -/
def insertSortedNat (x : Nat) : List Nat → List Nat
  | [] => [x]
  | y :: ys => if x ≤ y then x :: y :: ys else y :: insertSortedNat x ys

/-- Insertion sort on naturals. -/
def sortNat (l : List Nat) : List Nat := l.foldr insertSortedNat []

/-- Remove adjacent duplicates (after sorting: all duplicates). -/
def dedupAdj : List Nat → List Nat
  | [] => []
  | [x] => [x]
  | x :: y :: ys => if x = y then dedupAdj (y :: ys) else x :: dedupAdj (y :: ys)

/-- Modelled from the spec: `NposSolution::unique_targets` of the solution
codec (not under src/): the deduplicated set of all target indices the
solution distributes any weight to. -/
def unique_targets (psol : PartialSolution) : List Nat :=
  dedupAdj (sortNat (psol.votes.foldl (fun acc v => acc ++ v.2.map (fun p => p.1)) []))

/-- Modelled from the spec: the voter-identity → position index built from
the snapshot (`helpers::generate_voter_cache` / `voter_index_fn` are
not under src/): position of the voter with the given identity. -/
def find_voter_index (vs : List Voter) (w : Nat) : Option Nat :=
  match vs with
  | [] => none
  | v :: rest =>
    if v.who = w then some 0
    else (find_voter_index rest w).map (fun i => i + 1)

/-- Modelled from the spec: `helpers::stake_of_fn` (not under src/): the
voter's true stake from the snapshot, defaulting to zero when the voter
is unknown. -/
def stake_of (vs : List Voter) (w : Nat) : Nat :=
  match find_voter_index vs w with
  | some i =>
    match vs.get? i with
    | some v => v.stake
    | none => 0
  | none => 0

/-- Resolve every winner index of the solution to a target identity; any
out-of-range index is an `InvalidWinner` (step 3 of the checker). -/
def lookup_winners (ts : List Nat) : List Nat → Except FeasibilityError (List Nat)
  | [] => Except.ok []
  | i :: rest =>
    match ts.get? i with
    | none => Except.error FeasibilityError.invalidWinner
    | some w =>
      match lookup_winners ts rest with
      | Except.error e => Except.error e
      | Except.ok ws => Except.ok (w :: ws)

/-- Resolve the target indices of one vote's distribution to identities. -/
def decode_distribution (ts : List Nat) : List (Nat × Nat) → Except FeasibilityError (List (Nat × Nat))
  | [] => Except.ok []
  | p :: rest =>
    match ts.get? p.1 with
    | none => Except.error FeasibilityError.solutionInvalidIndex
    | some t =>
      match decode_distribution ts rest with
      | Except.error e => Except.error e
      | Except.ok ds => Except.ok ((t, p.2) :: ds)

/-- Modelled from the spec: `NposSolution::into_assignment` of the solution
codec (not under src/): convert the compact per-voter index-based
distribution into identity-based assignments; any malformed voter or
target index is a decode error (step 4 of the checker). -/
def into_assignment (vs : List Voter) (ts : List Nat) :
    List (Nat × List (Nat × Nat)) → Except FeasibilityError (List Assignment)
  | [] => Except.ok []
  | vote :: rest =>
    match vs.get? vote.1 with
    | none => Except.error FeasibilityError.solutionInvalidIndex
    | some v =>
      match decode_distribution ts vote.2 with
      | Except.error e => Except.error e
      | Except.ok dist =>
        match into_assignment vs ts rest with
        | Except.error e => Except.error e
        | Except.ok rest' => Except.ok ({ who := v.who, distribution := dist } :: rest')

/-- Step 5 of the checker, for one assignment: the voter must exist in this
page's snapshot (defensive), and every target it distributed weight to
must be among that voter's eligible targets; a stray target is an
`InvalidVote`. -/
def assignment_ok (vs : List Voter) (a : Assignment) : Except FeasibilityError Unit :=
  match find_voter_index vs a.who with
  | none => Except.error FeasibilityError.invalidVoter
  | some idx =>
    match vs.get? idx with
    | none => Except.error FeasibilityError.invalidVoter
    | some entry =>
      if a.distribution.any (fun p => !(entry.targets.contains p.1)) then
        Except.error FeasibilityError.invalidVote
      else Except.ok ()

/-- Step 5 of the checker over all assignments, short-circuiting at the
first failure as the source's `collect::<Result<_, _>>()` does. -/
def check_assignments (vs : List Voter) : List Assignment → Except FeasibilityError Unit
  | [] => Except.ok ()
  | a :: rest =>
    match assignment_ok vs a with
    | Except.error e => Except.error e
    | Except.ok _ => check_assignments vs rest

/-- Modelled from the spec: normalization of a staked distribution so that
it sums exactly to the voter's stake (`try_normalize` of sp-npos-elections
is not under src/); failure when no correction is possible is the
near-impossible conversion error of step 6. -/
def try_normalize (parts : List Nat) (stake : Nat) : Except FeasibilityError (List Nat) :=
  let s := parts.foldl (fun a b => a + b) 0
  if s = stake then Except.ok parts
  else
    match parts with
    | [] => Except.error FeasibilityError.arithmetic
    | p :: rest =>
      if s < stake then Except.ok ((p + (stake - s)) :: rest)
      else if s - stake ≤ p then Except.ok ((p - (s - stake)) :: rest)
      else Except.error FeasibilityError.arithmetic

/-- Modelled from the spec: `assignment_ratio_to_staked_normalized` of
sp-npos-elections (not under src/): convert proportional
(parts-per-billion) weights to absolute stake-weighted assignments
using each voter's true stake from the snapshot, normalized to sum to
exactly that stake (step 6 of the checker). -/
def ratio_to_staked_normalized (vs : List Voter) :
    List Assignment → Except FeasibilityError (List Assignment)
  | [] => Except.ok []
  | a :: rest =>
    let stake := stake_of vs a.who
    let parts := a.distribution.map (fun p => divFloor (p.2 * stake) 1000000000)
    match try_normalize parts stake with
    | Except.error e => Except.error e
    | Except.ok ns =>
      match ratio_to_staked_normalized vs rest with
      | Except.error e => Except.error e
      | Except.ok rest' =>
        Except.ok ({ who := a.who, distribution := (a.distribution.map (fun p => p.1)).zip ns } :: rest')

/-- Accumulate the staked edges of one assignment into the supports map;
an edge pointing at a non-winner is an `InvalidSupportEdge`. -/
def add_edges (who : Nat) (m : List (Nat × Support)) :
    List (Nat × Nat) → Except FeasibilityError (List (Nat × Support))
  | [] => Except.ok m
  | e :: rest =>
    match mget m e.1 with
    | none => Except.error FeasibilityError.invalidSupportEdge
    | some s =>
      add_edges who (mput m e.1 { total := satAdd s.total e.2, voters := s.voters ++ [(who, e.2)] }) rest

/-- Fold all staked assignments into the supports map. -/
def add_all_edges (m : List (Nat × Support)) :
    List Assignment → Except FeasibilityError (List (Nat × Support))
  | [] => Except.ok m
  | a :: rest =>
    match add_edges a.who m a.distribution with
    | Except.error e => Except.error e
    | Except.ok m' => add_all_edges m' rest

/-- Modelled from the spec: `sp_npos_elections::to_supports` (not under
src/): aggregate staked assignments into one `Supports` structure keyed
by winner identity — every winner starts with an empty default support,
and any edge to a non-winner is an error (step 7 of the checker). -/
def to_supports (winners : List Nat) (staked : List Assignment) :
    Except FeasibilityError Supports :=
  add_all_edges (winners.foldl (fun m w => mput m w { total := 0, voters := [] }) []) staked

/-- The feasibility checker `Pallet::feasibility_check_page_inner`: given
one page of a raw solution plus the corresponding snapshot slice,
reconstruct and validate vote assignments, producing a verified support
structure or a typed rejection.  Steps in source order. -/
def feasibility_check_page_inner (snap : Snapshot) (psol : PartialSolution) (page : Nat) :
    Except FeasibilityError Supports :=
  match snap.targets with
  | none => Except.error FeasibilityError.snapshotUnavailable
  | some snapshot_targets =>
    match mget snap.voters page with
    | none => Except.error FeasibilityError.snapshotUnavailable
    | some snapshot_voters =>
      match lookup_winners snapshot_targets (unique_targets psol) with
      | Except.error e => Except.error e
      | Except.ok winners =>
        match into_assignment snapshot_voters snapshot_targets psol.votes with
        | Except.error e => Except.error e
        | Except.ok assignments =>
          match check_assignments snapshot_voters assignments with
          | Except.error e => Except.error e
          | Except.ok _ =>
            match ratio_to_staked_normalized snapshot_voters assignments with
            | Except.error e => Except.error e
            | Except.ok staked => to_supports winners staked

/-- The two interchangeable storage slots of the queued solution
(`ValidSolution` in the source). -/
inductive ValidSolution where
  | X
  | Y
  deriving DecidableEq, Repr

/-- `ValidSolution::other`: the other slot. -/
def ValidSolution.other : ValidSolution → ValidSolution
  | ValidSolution.X => ValidSolution.Y
  | ValidSolution.Y => ValidSolution.X

/-- The pallet's storage, as one explicit record.  Fields mirror the
storage items `VerifyingSolutionStorage`, `VerifyingSolutionPage`,
`VerifyingSolutionScore`, `QueuedSolutionX`, `QueuedSolutionY`,
`QueuedValidVariant`, `QueuedSolutionBackings`, `QueuedSolutionScore`
and `MinimumUntrustedScore`. -/
structure VerifierState where
  verifyingSolutionStorage : List (Nat × PartialSolution)
  verifyingSolutionPage : Option Nat
  verifyingSolutionScore : Option ElectionScore
  queuedSolutionX : List (Nat × Supports)
  queuedSolutionY : List (Nat × Supports)
  queuedValidVariant : ValidSolution
  queuedSolutionBackings : List (Nat × List (Nat × Nat))
  queuedSolutionScore : Option ElectionScore
  minimumUntrustedScore : Option ElectionScore
  deriving DecidableEq, Repr

/-- The genesis storage: every map empty, every value absent, and the
`ValueQuery` default `ValidSolution::Y` for the valid variant. -/
def initialState : VerifierState :=
  { verifyingSolutionStorage := []
    verifyingSolutionPage := none
    verifyingSolutionScore := none
    queuedSolutionX := []
    queuedSolutionY := []
    queuedValidVariant := ValidSolution.Y
    queuedSolutionBackings := []
    queuedSolutionScore := none
    minimumUntrustedScore := none }

/-- The configuration constants used by the verifier: the page count of
the round and the `SolutionImprovementThreshold` (a `Perbill`, in
parts-per-billion). -/
structure Config where
  pages : Nat
  solutionImprovementThreshold : Nat
  deriving DecidableEq, Repr

/-- Modelled from the spec: `crate::Pallet::msp`, the most significant page
index (not under src/); per the spec the cursor counts down "from
`pages_count - 1` to `0`". -/
def msp (cfg : Config) : Nat := cfg.pages - 1

/-- `VerifyingSolution::exists`: a sealed solution is in the verification
queue exactly when the claimed score is set. -/
def VerifyingSolution_exists (st : VerifierState) : Bool :=
  st.verifyingSolutionScore.isSome

/-- `VerifyingSolution::kill`: remove all three verifying-solution storage
items. -/
def VerifyingSolution_kill (st : VerifierState) : VerifierState :=
  { st with
    verifyingSolutionStorage := []
    verifyingSolutionPage := none
    verifyingSolutionScore := none }

/-- `VerifyingSolution::put_page` (the producer-facing `submit_page`):
rejected with the unit error (`AlreadySealed`) while a sealed solution
exists, otherwise stores the page unconditionally.  The returned `Bool`
is the `Result<(), ()>` of the source (`true` = `Ok`). -/
def put_page (st : VerifierState) (page_index : Nat) (page_solution : PartialSolution) :
    Bool × VerifierState :=
  if VerifyingSolution_exists st then (false, st)
  else
    (true, { st with
      verifyingSolutionStorage := mput st.verifyingSolutionStorage page_index page_solution })

/-- `VerifyingSolution::proceed_page`: if the cursor exists and is nonzero
it is decremented and `true` is returned; otherwise `false`, leaving
the cursor in place. -/
def proceed_page (st : VerifierState) : Bool × VerifierState :=
  match st.verifyingSolutionPage with
  | none => (false, st)
  | some current =>
    match current with
    | 0 => (false, st)
    | n + 1 => (true, { st with verifyingSolutionPage := some n })

/-- The slot currently holding the valid solution
(`QueuedSolution::valid`). -/
def valid_variant (st : VerifierState) : ValidSolution := st.queuedValidVariant

/-- The scratch slot (`QueuedSolution::invalid`). -/
def invalid_variant (st : VerifierState) : ValidSolution := st.queuedValidVariant.other

/-- `QueuedSolution::queued_solution`: the score of the current best
solution, if any. -/
def queued_solution (st : VerifierState) : Option ElectionScore := st.queuedSolutionScore

/-- `QueuedSolution::get_queued_solution_page`: read one page of the valid
slot; the scratch slot is never read here. -/
def get_queued_solution_page (st : VerifierState) (page : Nat) : Option Supports :=
  match valid_variant st with
  | ValidSolution.X => mget st.queuedSolutionX page
  | ValidSolution.Y => mget st.queuedSolutionY page

/-- `QueuedSolution::get_invalid_page`: read one page of the scratch
slot. -/
def get_invalid_page (st : VerifierState) (page : Nat) : Option Supports :=
  match invalid_variant st with
  | ValidSolution.X => mget st.queuedSolutionX page
  | ValidSolution.Y => mget st.queuedSolutionY page

/-- `QueuedSolution::set_invalid_page`: record each target's backing stake
in `QueuedSolutionBackings[page]` and write the supports into the
scratch slot. -/
def set_invalid_page (st : VerifierState) (page : Nat) (supports : Supports) : VerifierState :=
  let backings := supports.map (fun p => (p.1, p.2.total))
  match invalid_variant st with
  | ValidSolution.X =>
    { st with
      queuedSolutionBackings := mput st.queuedSolutionBackings page backings
      queuedSolutionX := mput st.queuedSolutionX page supports }
  | ValidSolution.Y =>
    { st with
      queuedSolutionBackings := mput st.queuedSolutionBackings page backings
      queuedSolutionY := mput st.queuedSolutionY page supports }

/-- `QueuedSolution::clear_invalid`: wipe the scratch slot's pages and the
backings; the variant pointer is not flipped. -/
def clear_invalid (st : VerifierState) : VerifierState :=
  match invalid_variant st with
  | ValidSolution.X => { st with queuedSolutionX := [], queuedSolutionBackings := [] }
  | ValidSolution.Y => { st with queuedSolutionY := [], queuedSolutionBackings := [] }

/-- `QueuedSolution::clear_valid`: wipe the valid slot's pages and kill the
queued score. -/
def clear_valid (st : VerifierState) : VerifierState :=
  match valid_variant st with
  | ValidSolution.X => { st with queuedSolutionX := [], queuedSolutionScore := none }
  | ValidSolution.Y => { st with queuedSolutionY := [], queuedSolutionScore := none }

/-- `QueuedSolution::finalize_correct`: flip the valid-variant pointer,
store the score, clear the backings, and clear what is now the invalid
slot (the old valid data).  Readers switch to the fully verified
candidate in the single pointer flip. -/
def finalize_correct (st : VerifierState) (score : ElectionScore) : VerifierState :=
  clear_invalid
    { st with
      queuedValidVariant := st.queuedValidVariant.other
      queuedSolutionScore := some score
      queuedSolutionBackings := [] }

/-- Modelled from the spec: the support evaluator of `sp-npos-elections`
(not under src/): fold the totals into the 3-tuple score — minimal
stake, saturating sum of stakes, saturating sum of squares — starting
from `[u128::MAX, 0, 0]`. -/
def evaluate (totals : List Nat) : ElectionScore :=
  totals.foldl
    (fun acc t =>
      { minimalStake := min acc.minimalStake t
        sumStake := satAdd acc.sumStake t
        sumStakeSquared := satAdd acc.sumStakeSquared (satMul t t) })
    { minimalStake := u128max, sumStake := 0, sumStakeSquared := 0 }

/-- `QueuedSolution::final_score`: flatten `QueuedSolutionBackings` across
all pages, accumulate each target's total backing with saturating
addition, and return the evaluated 3-tuple score together with the
number of distinct backed targets (the winner count). -/
def final_score (st : VerifierState) : ElectionScore × Nat :=
  let flat := st.queuedSolutionBackings.foldl (fun acc p => acc ++ p.2) []
  let totals := flat.foldl (fun m p => mput m p.1 (satAdd ((mget m p.1).getD 0) p.2)) []
  (evaluate (totals.map (fun p => p.2)), totals.length)

/-- `Pallet::ensure_score_quality`: the score must better the queued
solution (if any) by at least `SolutionImprovementThreshold`, and must
better `MinimumUntrustedScore` (if set) with zero tolerance; either
failure is `ScoreTooLow`. -/
def ensure_score_quality (cfg : Config) (st : VerifierState) (score : ElectionScore) :
    Except FeasibilityError Unit :=
  let is_improvement :=
    match queued_solution st with
    | none => true
    | some best_score => is_score_better score best_score cfg.solutionImprovementThreshold
  if !is_improvement then Except.error FeasibilityError.scoreTooLow
  else
    let is_greater_than_min_trusted :=
      match st.minimumUntrustedScore with
      | none => true
      | some min_score => is_score_better score min_score 0
    if !is_greater_than_min_trusted then Except.error FeasibilityError.scoreTooLow
    else Except.ok ()

/-- `VerifyingSolution::seal_unverified_solution`: rejected while a sealed
solution exists; otherwise the quality gate runs, and on its failure
the whole tracker is killed before the error is returned; on success
the claimed score is stored and the cursor is set to the most
significant page.  The `Bool` is the `Result<(), ()>` of the source. -/
def seal_unverified_solution (cfg : Config) (st : VerifierState) (claimed_score : ElectionScore) :
    Bool × VerifierState :=
  if VerifyingSolution_exists st then (false, st)
  else
    match ensure_score_quality cfg st claimed_score with
    | Except.error _ => (false, VerifyingSolution_kill st)
    | Except.ok _ =>
      (true, { st with
        verifyingSolutionScore := some claimed_score
        verifyingSolutionPage := some (msp cfg) })

/-- `Pallet::finalize_verification`: recompute `final_score`, compare it
exactly to the claimed score and the winner count exactly to the
desired target count; a match kills the tracker and promotes the
scratch slot, a mismatch kills the tracker and clears the scratch slot.
The source unwraps `get_score()` and `desired_targets()`; the panics of
those unwraps are modelled as `none`. -/
def finalize_verification (snap : Snapshot) (st : VerifierState) : Option VerifierState :=
  let fs := final_score st
  match st.verifyingSolutionScore with
  | none => none
  | some claimed_score =>
    match snap.desiredTargets with
    | none => none
    | some desired_targets =>
      if fs.1 = claimed_score ∧ fs.2 = desired_targets then
        some (finalize_correct (VerifyingSolution_kill st) fs.1)
      else
        some (clear_invalid (VerifyingSolution_kill st))

/-- The body of one tick for the page at the cursor: run the feasibility
checker on the given page solution; on success write the supports into
the scratch slot and advance, finalizing when no pages remain; on
failure kill the tracker and clear the scratch slot. -/
def process_page (snap : Snapshot) (st : VerifierState) (current_page : Nat)
    (page_solution : PartialSolution) : Option VerifierState :=
  match feasibility_check_page_inner snap page_solution current_page with
  | Except.ok support =>
    match proceed_page (set_invalid_page st current_page support) with
    | (true, st2) => some st2
    | (false, st2) => finalize_verification snap st2
  | Except.error _ => some (clear_invalid (VerifyingSolution_kill st))

/-- One scheduler tick (the `on_initialize` hook): a no-op when no cursor
exists; otherwise the page at the cursor is fetched, a missing page
defaulting to the empty solution, and processed. -/
def tick (snap : Snapshot) (st : VerifierState) : Option VerifierState :=
  match st.verifyingSolutionPage with
  | none => some st
  | some current_page =>
    process_page snap st current_page
      ((mget st.verifyingSolutionStorage current_page).getD defaultSolution)

/-- One transition of the verifier: a page submission, a seal attempt, a
successful scheduler tick, or an unconditional tracker kill. -/
inductive Step (cfg : Config) (snap : Snapshot) : VerifierState → VerifierState → Prop where
  | put_page_step (st : VerifierState) (idx : Nat) (psol : PartialSolution) :
      Step cfg snap st (put_page st idx psol).2
  | seal_step (st : VerifierState) (claimed : ElectionScore) :
      Step cfg snap st (seal_unverified_solution cfg st claimed).2
  | tick_step (st st' : VerifierState) : tick snap st = some st' → Step cfg snap st st'
  | kill_step (st : VerifierState) : Step cfg snap st (VerifyingSolution_kill st)

/-- Reflexive-transitive closure of `Step` from a given state. -/
inductive Reachable (cfg : Config) (snap : Snapshot) : VerifierState → VerifierState → Prop where
  | refl (st : VerifierState) : Reachable cfg snap st st
  | tail (st st' st'' : VerifierState) :
      Reachable cfg snap st st' → Step cfg snap st' st'' → Reachable cfg snap st st''

/-- What the consumer-facing readers observe: every valid-slot page and
the queued score. -/
def ReadersEq (s t : VerifierState) : Prop :=
  (∀ idx, get_queued_solution_page s idx = get_queued_solution_page t idx) ∧
    queued_solution s = queued_solution t

/-- Apply a list of page submissions in order, keeping only the states. -/
def apply_puts (st : VerifierState) : List (Nat × PartialSolution) → VerifierState
  | [] => st
  | p :: rest => apply_puts (put_page st p.1 p.2).2 rest

/-- Run `n` scheduler ticks, stopping at a panic. -/
def iterate_ticks (snap : Snapshot) : Nat → VerifierState → Option VerifierState
  | 0, st => some st
  | n + 1, st =>
    match tick snap st with
    | none => none
    | some st1 => iterate_ticks snap n st1

/-- A producer-facing call: one page submission or one seal attempt. -/
inductive ProducerCall where
  | putCall (idx : Nat) (psol : PartialSolution)
  | sealCall (score : ElectionScore)
  deriving Repr

/-- Apply one producer call, returning the source's `Result<(), ()>` as a
`Bool` next to the new state. -/
def apply_call (cfg : Config) (st : VerifierState) : ProducerCall → Bool × VerifierState
  | ProducerCall.putCall idx psol => put_page st idx psol
  | ProducerCall.sealCall score => seal_unverified_solution cfg st score

/-- Apply a list of producer calls, collecting each call's result. -/
def apply_calls (cfg : Config) (st : VerifierState) :
    List ProducerCall → List Bool × VerifierState
  | [] => ([], st)
  | c :: rest =>
    let r := apply_call cfg st c
    let rr := apply_calls cfg r.2 rest
    (r.1 :: rr.1, rr.2)

/-! Concrete fixtures: a 3-page round over a small snapshot, used to
instantiate the theorems below on closed inputs. -/

/-- A 3-page configuration with a zero improvement threshold. -/
def cfg0 : Config := { pages := 3, solutionImprovementThreshold := 0 }

/-- A snapshot with two targets and three voter pages. -/
def snap0 : Snapshot :=
  { targets := some [100, 200]
    voters :=
      [ (0, [⟨1, 10, [100]⟩, ⟨2, 10, [100, 200]⟩])
      , (1, [⟨3, 20, [200]⟩])
      , (2, [⟨4, 15, [100, 200]⟩]) ]
    desiredTargets := some 2 }

/-- Page-0 solution: voter index 0 gives all weight to target index 0. -/
def sol0 : PartialSolution := ⟨[(0, [(0, 1000000000)])]⟩

/-- Page-1 solution: voter index 0 gives all weight to target index 1. -/
def solP1 : PartialSolution := ⟨[(0, [(1, 1000000000)])]⟩

/-- Page-2 solution: voter index 0 splits its weight over both targets. -/
def solP2 : PartialSolution := ⟨[(0, [(0, 500000000), (1, 500000000)])]⟩

/-- A stray-vote solution: voter index 0 of page 0 (eligible only for
target 100) gives weight to target index 1 (identity 200). -/
def solStray : PartialSolution := ⟨[(0, [(1, 1000000000)])]⟩

/-- A solution naming the out-of-range target index 9. -/
def solBadWinner : PartialSolution := ⟨[(0, [(9, 1000000000)])]⟩

/-- The true score of the full `sol0`/`solP1`/`solP2` round over `snap0`. -/
def sampleScore : ElectionScore := ⟨18, 45, 1053⟩

/-- State with only page 0 submitted. -/
def stA : VerifierState := (put_page initialState 0 sol0).2

/-- State with all three pages submitted. -/
def stAll : VerifierState :=
  (put_page (put_page (put_page initialState 0 sol0).2 1 solP1).2 2 solP2).2

/-- The sealed full round. -/
def stSealedAll : VerifierState := (seal_unverified_solution cfg0 stAll sampleScore).2

/-- Page 0 submitted, with a minimum untrusted score floor far above
`sampleScore`. -/
def stMin : VerifierState :=
  { stA with minimumUntrustedScore := some ⟨1000, 1000, 1⟩ }

/-- A state ready for finalization: sealed score and one backing page. -/
def stFin : VerifierState :=
  { initialState with
    verifyingSolutionScore := some ⟨10, 10, 100⟩
    queuedSolutionBackings := [(0, [(7, 10)])] }

/-- A snapshot asking for exactly one winner. -/
def snapFin : Snapshot := { targets := some [], voters := [], desiredTargets := some 1 }

/-- Only the bad page 2 submitted. -/
def stC2 : VerifierState := (put_page initialState 2 solBadWinner).2

/-- The bad page 2, sealed. -/
def stC2Sealed : VerifierState := (seal_unverified_solution cfg0 stC2 sampleScore).2

/-- A sealed tracker whose cursor points at a page that was never
submitted. -/
def stC9 : VerifierState :=
  { initialState with
    verifyingSolutionPage := some 1
    verifyingSolutionScore := some sampleScore }

/-! Helper lemmas about the storage operations. -/

theorem valid_other_ne (v : ValidSolution) : v.other ≠ v := by
  cases v <;> simp [ValidSolution.other]

theorem set_invalid_page_verifying (st : VerifierState) (p : Nat) (s : Supports) :
    (set_invalid_page st p s).verifyingSolutionStorage = st.verifyingSolutionStorage ∧
    (set_invalid_page st p s).verifyingSolutionPage = st.verifyingSolutionPage ∧
    (set_invalid_page st p s).verifyingSolutionScore = st.verifyingSolutionScore ∧
    (set_invalid_page st p s).queuedSolutionScore = st.queuedSolutionScore ∧
    (set_invalid_page st p s).queuedValidVariant = st.queuedValidVariant := by
  unfold set_invalid_page invalid_variant
  cases st.queuedValidVariant <;> simp [ValidSolution.other]

theorem clear_invalid_fields (st : VerifierState) :
    (clear_invalid st).verifyingSolutionStorage = st.verifyingSolutionStorage ∧
    (clear_invalid st).verifyingSolutionPage = st.verifyingSolutionPage ∧
    (clear_invalid st).verifyingSolutionScore = st.verifyingSolutionScore ∧
    (clear_invalid st).queuedSolutionScore = st.queuedSolutionScore ∧
    (clear_invalid st).queuedValidVariant = st.queuedValidVariant := by
  unfold clear_invalid invalid_variant
  cases st.queuedValidVariant <;> simp [ValidSolution.other]

theorem readers_eq_of_fields {s t : VerifierState}
    (hX : s.queuedSolutionX = t.queuedSolutionX)
    (hY : s.queuedSolutionY = t.queuedSolutionY)
    (hV : s.queuedValidVariant = t.queuedValidVariant)
    (hS : s.queuedSolutionScore = t.queuedSolutionScore) : ReadersEq s t := by
  constructor
  · intro idx
    unfold get_queued_solution_page valid_variant
    rw [hV]
    cases t.queuedValidVariant
    · rw [hX]
    · rw [hY]
  · exact hS

theorem readers_refl (s : VerifierState) : ReadersEq s s :=
  ⟨fun _ => rfl, rfl⟩

theorem readers_trans {s t u : VerifierState} (h1 : ReadersEq s t) (h2 : ReadersEq t u) :
    ReadersEq s u :=
  ⟨fun idx => (h1.1 idx).trans (h2.1 idx), h1.2.trans h2.2⟩

theorem readers_put (st : VerifierState) (i : Nat) (p : PartialSolution) :
    ReadersEq st (put_page st i p).2 := by
  unfold put_page
  split
  · exact readers_refl st
  · exact readers_eq_of_fields rfl rfl rfl rfl

theorem readers_kill (st : VerifierState) : ReadersEq st (VerifyingSolution_kill st) :=
  readers_eq_of_fields rfl rfl rfl rfl

theorem readers_seal (cfg : Config) (st : VerifierState) (c : ElectionScore) :
    ReadersEq st (seal_unverified_solution cfg st c).2 := by
  unfold seal_unverified_solution
  split
  · exact readers_refl st
  · split
    · exact readers_kill st
    · exact readers_eq_of_fields rfl rfl rfl rfl

theorem readers_set_invalid (st : VerifierState) (p : Nat) (s : Supports) :
    ReadersEq st (set_invalid_page st p s) := by
  constructor
  · intro idx
    unfold get_queued_solution_page valid_variant set_invalid_page invalid_variant
    cases st.queuedValidVariant <;> simp [ValidSolution.other]
  · exact (set_invalid_page_verifying st p s).2.2.2.1.symm

theorem readers_clear_invalid (st : VerifierState) : ReadersEq st (clear_invalid st) := by
  constructor
  · intro idx
    unfold get_queued_solution_page valid_variant clear_invalid invalid_variant
    cases st.queuedValidVariant <;> simp [ValidSolution.other]
  · exact (clear_invalid_fields st).2.2.2.1.symm

theorem readers_page_update (s : VerifierState) (x : Option Nat) :
    ReadersEq s { s with verifyingSolutionPage := x } :=
  readers_eq_of_fields rfl rfl rfl rfl

theorem tick_cases {snap : Snapshot} {st st' : VerifierState} (h : tick snap st = some st') :
    (st.verifyingSolutionPage = none ∧ st' = st) ∨
    (∃ cur e, st.verifyingSolutionPage = some cur ∧
      feasibility_check_page_inner snap
        ((mget st.verifyingSolutionStorage cur).getD defaultSolution) cur = Except.error e ∧
      st' = clear_invalid (VerifyingSolution_kill st)) ∨
    (∃ n sup, st.verifyingSolutionPage = some (n + 1) ∧
      feasibility_check_page_inner snap
        ((mget st.verifyingSolutionStorage (n + 1)).getD defaultSolution) (n + 1) = Except.ok sup ∧
      st' = { set_invalid_page st (n + 1) sup with verifyingSolutionPage := some n }) ∨
    (∃ sup claimed desired, st.verifyingSolutionPage = some 0 ∧
      feasibility_check_page_inner snap
        ((mget st.verifyingSolutionStorage 0).getD defaultSolution) 0 = Except.ok sup ∧
      st.verifyingSolutionScore = some claimed ∧ snap.desiredTargets = some desired ∧
      (((final_score (set_invalid_page st 0 sup)).1 = claimed ∧
        (final_score (set_invalid_page st 0 sup)).2 = desired ∧
        st' = finalize_correct (VerifyingSolution_kill (set_invalid_page st 0 sup))
                (final_score (set_invalid_page st 0 sup)).1) ∨
       (¬ ((final_score (set_invalid_page st 0 sup)).1 = claimed ∧
           (final_score (set_invalid_page st 0 sup)).2 = desired) ∧
        st' = clear_invalid (VerifyingSolution_kill (set_invalid_page st 0 sup))))) := by
  cases hp : st.verifyingSolutionPage with
  | none =>
    simp only [tick, hp] at h
    exact Or.inl ⟨rfl, (Option.some.inj h).symm⟩
  | some cur =>
    simp only [tick, hp] at h
    cases hf : feasibility_check_page_inner snap
        ((mget st.verifyingSolutionStorage cur).getD defaultSolution) cur with
    | error e =>
      simp only [process_page, hf] at h
      exact Or.inr (Or.inl ⟨cur, e, rfl, hf, (Option.some.inj h).symm⟩)
    | ok sup =>
      simp only [process_page, hf] at h
      have hpg : (set_invalid_page st cur sup).verifyingSolutionPage = some cur := by
        rw [(set_invalid_page_verifying st cur sup).2.1]; exact hp
      cases cur with
      | zero =>
        have hproc : proceed_page (set_invalid_page st 0 sup) =
            (false, set_invalid_page st 0 sup) := by
          unfold proceed_page; rw [hpg]
        rw [hproc] at h
        simp only at h
        have hsc1 : (set_invalid_page st 0 sup).verifyingSolutionScore =
            st.verifyingSolutionScore := (set_invalid_page_verifying st 0 sup).2.2.1
        cases hs : st.verifyingSolutionScore with
        | none =>
          simp only [finalize_verification, hsc1, hs] at h
          exact Option.noConfusion h
        | some claimed =>
          cases hd : snap.desiredTargets with
          | none =>
            simp only [finalize_verification, hsc1, hs, hd] at h
            exact Option.noConfusion h
          | some desired =>
            simp only [finalize_verification, hsc1, hs, hd] at h
            refine Or.inr (Or.inr (Or.inr ⟨sup, claimed, desired, rfl, hf, rfl, rfl, ?_⟩))
            by_cases hcond : (final_score (set_invalid_page st 0 sup)).1 = claimed ∧
                (final_score (set_invalid_page st 0 sup)).2 = desired
            · rw [if_pos hcond] at h
              exact Or.inl ⟨hcond.1, hcond.2, (Option.some.inj h).symm⟩
            · rw [if_neg hcond] at h
              exact Or.inr ⟨hcond, (Option.some.inj h).symm⟩
      | succ n =>
        have hproc : proceed_page (set_invalid_page st (n + 1) sup) =
            (true, { set_invalid_page st (n + 1) sup with verifyingSolutionPage := some n }) := by
          unfold proceed_page; rw [hpg]
        rw [hproc] at h
        simp only at h
        exact Or.inr (Or.inr (Or.inl ⟨n, sup, rfl, hf, (Option.some.inj h).symm⟩))

theorem finalize_correct_variant (s : VerifierState) (score : ElectionScore) :
    (finalize_correct s score).queuedValidVariant = s.queuedValidVariant.other := by
  unfold finalize_correct
  rw [(clear_invalid_fields _).2.2.2.2]

theorem finalize_correct_fields (s : VerifierState) (score : ElectionScore) :
    (finalize_correct s score).verifyingSolutionStorage = s.verifyingSolutionStorage ∧
    (finalize_correct s score).verifyingSolutionPage = s.verifyingSolutionPage ∧
    (finalize_correct s score).verifyingSolutionScore = s.verifyingSolutionScore ∧
    (finalize_correct s score).queuedSolutionScore = some score := by
  unfold finalize_correct
  refine ⟨?_, ?_, ?_, ?_⟩
  · rw [(clear_invalid_fields _).1]
  · rw [(clear_invalid_fields _).2.1]
  · rw [(clear_invalid_fields _).2.2.1]
  · rw [(clear_invalid_fields _).2.2.2.1]

theorem seal_success_fields (cfg : Config) (st : VerifierState) (claimed : ElectionScore)
    (h : (seal_unverified_solution cfg st claimed).1 = true) :
    (seal_unverified_solution cfg st claimed).2 =
      { st with
        verifyingSolutionScore := some claimed
        verifyingSolutionPage := some (msp cfg) } := by
  by_cases hex : VerifyingSolution_exists st
  · simp [seal_unverified_solution, hex] at h
  · cases hq : ensure_score_quality cfg st claimed with
    | error e => simp [seal_unverified_solution, hex, hq] at h
    | ok u => simp [seal_unverified_solution, hex, hq]

theorem sealed_call_noop (cfg : Config) (st : VerifierState) (c : ProducerCall)
    (h : st.verifyingSolutionScore.isSome) : apply_call cfg st c = (false, st) := by
  cases c with
  | putCall idx psol => simp [apply_call, put_page, VerifyingSolution_exists, h]
  | sealCall score => simp [apply_call, seal_unverified_solution, VerifyingSolution_exists, h]

/-- Claim C6: `ensure_score_quality(score)` succeeds iff the score betters
the currently queued score by at least the configured improvement
threshold (trivially passing when no solution is queued) and betters
`MinimumUntrustedScore` with zero tolerance (trivially passing when no
floor is set); otherwise it returns `ScoreTooLow`. -/
theorem ensure_score_quality_iff (cfg : Config) (st : VerifierState) (s : ElectionScore) :
    (ensure_score_quality cfg st s = Except.ok () ↔
      ((∀ best, queued_solution st = some best →
          is_score_better s best cfg.solutionImprovementThreshold = true) ∧
        (∀ m, st.minimumUntrustedScore = some m → is_score_better s m 0 = true))) ∧
    (ensure_score_quality cfg st s = Except.ok () ∨
      ensure_score_quality cfg st s = Except.error FeasibilityError.scoreTooLow) := by
  cases hq : queued_solution st with
  | none =>
    cases hm : st.minimumUntrustedScore with
    | none =>
      simp only [ensure_score_quality, hq, hm]
      refine ⟨⟨fun _ => ⟨?_, ?_⟩, fun _ => rfl⟩, Or.inl rfl⟩
      · intro b hb
        exact Option.noConfusion hb
      · intro m hm2
        exact Option.noConfusion hm2
    | some m =>
      simp only [ensure_score_quality, hq, hm]
      generalize hc : is_score_better s m 0 = c
      cases c with
      | false =>
        refine ⟨⟨fun hcontra => Except.noConfusion hcontra, fun hcond => ?_⟩, Or.inr rfl⟩
        exact absurd (hcond.2 m rfl) (by rw [hc]; exact Bool.false_ne_true)
      | true =>
        refine ⟨⟨fun _ => ⟨?_, ?_⟩, fun _ => rfl⟩, Or.inl rfl⟩
        · intro b hb
          exact Option.noConfusion hb
        · intro m2 hm2
          cases Option.some.inj hm2
          exact hc
  | some best =>
    cases hm : st.minimumUntrustedScore with
    | none =>
      simp only [ensure_score_quality, hq, hm]
      generalize hb : is_score_better s best cfg.solutionImprovementThreshold = b
      cases b with
      | false =>
        refine ⟨⟨fun hcontra => Except.noConfusion hcontra, fun hcond => ?_⟩, Or.inr rfl⟩
        exact absurd (hcond.1 best rfl) (by rw [hb]; exact Bool.false_ne_true)
      | true =>
        refine ⟨⟨fun _ => ⟨?_, ?_⟩, fun _ => rfl⟩, Or.inl rfl⟩
        · intro b2 hb2
          cases Option.some.inj hb2
          exact hb
        · intro m hm2
          exact Option.noConfusion hm2
    | some m =>
      simp only [ensure_score_quality, hq, hm]
      generalize hb : is_score_better s best cfg.solutionImprovementThreshold = b
      generalize hc : is_score_better s m 0 = c
      cases b with
      | false =>
        refine ⟨⟨fun hcontra => Except.noConfusion hcontra, fun hcond => ?_⟩, Or.inr rfl⟩
        exact absurd (hcond.1 best rfl) (by rw [hb]; exact Bool.false_ne_true)
      | true =>
        cases c with
        | false =>
          refine ⟨⟨fun hcontra => Except.noConfusion hcontra, fun hcond => ?_⟩, Or.inr rfl⟩
          exact absurd (hcond.2 m rfl) (by rw [hc]; exact Bool.false_ne_true)
        | true =>
          refine ⟨⟨fun _ => ⟨?_, ?_⟩, fun _ => rfl⟩, Or.inl rfl⟩
          · intro b2 hb2
            cases Option.some.inj hb2
            exact hb
          · intro m2 hm2
            cases Option.some.inj hm2
            exact hc

/-- Claim C5 counterexample: with a 3-page round, submitting only page 0
and sealing succeeds, yet the cursor is set to 2 — not to 0, the
highest page index present among the submitted pages. -/
theorem seal_cursor_counterexample :
    (seal_unverified_solution cfg0 stA sampleScore).1 = true ∧
    stA.verifyingSolutionStorage.map (fun p => p.1) = [0] ∧
    (seal_unverified_solution cfg0 stA sampleScore).2.verifyingSolutionPage = some 2 ∧
    (seal_unverified_solution cfg0 stA sampleScore).2.verifyingSolutionPage ≠ some 0 := by
  refine ⟨rfl, rfl, rfl, ?_⟩
  intro h
  exact absurd (Option.some.inj h) (by decide)

/-- Claim C5 (amended): for every set of submitted pages, a successful
seal stores the claimed score and sets the verification cursor to the
most significant page index of the round (`Pages - 1`), regardless of
which pages were submitted. -/
theorem seal_sets_cursor_to_msp (cfg : Config) (st : VerifierState) (claimed : ElectionScore)
    (h : (seal_unverified_solution cfg st claimed).1 = true) :
    (seal_unverified_solution cfg st claimed).2.verifyingSolutionScore = some claimed ∧
    (seal_unverified_solution cfg st claimed).2.verifyingSolutionPage = some (msp cfg) := by
  rw [seal_success_fields cfg st claimed h]
  exact ⟨rfl, rfl⟩

/-- Witness for the amended C5 at the concrete single-page submission. -/
theorem seal_sets_cursor_to_msp_witness :
    (seal_unverified_solution cfg0 stA sampleScore).1 = true ∧
    ((seal_unverified_solution cfg0 stA sampleScore).2.verifyingSolutionScore =
        some sampleScore ∧
      (seal_unverified_solution cfg0 stA sampleScore).2.verifyingSolutionPage =
        some (msp cfg0)) :=
  ⟨rfl, seal_sets_cursor_to_msp cfg0 stA sampleScore rfl⟩

/-- Claim C7: a seal on an unsealed tracker that fails the quality gate
returns the error and wipes every previously submitted page, the
cursor, and the score: the tracker reports not-exists afterwards. -/
theorem seal_quality_failure_wipes (cfg : Config) (st : VerifierState)
    (claimed : ElectionScore) (e : FeasibilityError)
    (hns : st.verifyingSolutionScore = none)
    (hq : ensure_score_quality cfg st claimed = Except.error e) :
    seal_unverified_solution cfg st claimed = (false, VerifyingSolution_kill st) ∧
    (seal_unverified_solution cfg st claimed).2.verifyingSolutionStorage = [] ∧
    (seal_unverified_solution cfg st claimed).2.verifyingSolutionPage = none ∧
    (seal_unverified_solution cfg st claimed).2.verifyingSolutionScore = none ∧
    VerifyingSolution_exists (seal_unverified_solution cfg st claimed).2 = false := by
  simp [seal_unverified_solution, VerifyingSolution_exists, hns, hq, VerifyingSolution_kill]

/-- Witness for C7: sealing below the minimum untrusted score wipes the
previously accepted page 0. -/
theorem seal_quality_failure_wipes_witness :
    stMin.verifyingSolutionScore = none ∧
    ensure_score_quality cfg0 stMin sampleScore = Except.error FeasibilityError.scoreTooLow ∧
    (seal_unverified_solution cfg0 stMin sampleScore = (false, VerifyingSolution_kill stMin) ∧
      (seal_unverified_solution cfg0 stMin sampleScore).2.verifyingSolutionStorage = [] ∧
      (seal_unverified_solution cfg0 stMin sampleScore).2.verifyingSolutionPage = none ∧
      (seal_unverified_solution cfg0 stMin sampleScore).2.verifyingSolutionScore = none ∧
      VerifyingSolution_exists (seal_unverified_solution cfg0 stMin sampleScore).2 = false) :=
  ⟨rfl, rfl,
    seal_quality_failure_wipes cfg0 stMin sampleScore FeasibilityError.scoreTooLow rfl rfl⟩

/-- Claim C3: once a seal succeeds, every subsequent `submit_page` and
every subsequent `seal` fails with the `AlreadySealed` rejection of the
sealed-tracker guard and mutates nothing, for any sequence of such
calls (the guard holds until the tracker is killed, which no producer
call does). -/
theorem exclusivity_after_seal (cfg : Config) (st st' : VerifierState)
    (claimed : ElectionScore)
    (h : seal_unverified_solution cfg st claimed = (true, st'))
    (calls : List ProducerCall) :
    (apply_calls cfg st' calls).2 = st' ∧
    ∀ r ∈ (apply_calls cfg st' calls).1, r = false := by
  have h1 : (seal_unverified_solution cfg st claimed).1 = true := by rw [h]
  have h2 : st' = (seal_unverified_solution cfg st claimed).2 := by rw [h]
  rw [seal_success_fields cfg st claimed h1] at h2
  have hsome : st'.verifyingSolutionScore.isSome := by rw [h2]; simp
  induction calls with
  | nil => exact ⟨rfl, by intro r hr; cases hr⟩
  | cons c rest ih =>
    have hc := sealed_call_noop cfg st' c hsome
    refine ⟨?_, ?_⟩
    · simp only [apply_calls, hc]
      exact ih.1
    · intro r hr
      simp only [apply_calls, hc, List.mem_cons] at hr
      rcases hr with rfl | hr
      · rfl
      · exact ih.2 r hr

/-- Witness for C3: after sealing the single-page round, a further page
submission and a further seal both fail and leave the state unchanged. -/
theorem exclusivity_after_seal_witness :
    seal_unverified_solution cfg0 stA sampleScore =
      (true, (seal_unverified_solution cfg0 stA sampleScore).2) ∧
    ((apply_calls cfg0 (seal_unverified_solution cfg0 stA sampleScore).2
        [ProducerCall.putCall 1 solP1, ProducerCall.sealCall sampleScore]).2 =
      (seal_unverified_solution cfg0 stA sampleScore).2 ∧
    ∀ r ∈ (apply_calls cfg0 (seal_unverified_solution cfg0 stA sampleScore).2
        [ProducerCall.putCall 1 solP1, ProducerCall.sealCall sampleScore]).1, r = false) :=
  ⟨rfl,
    exclusivity_after_seal cfg0 stA (seal_unverified_solution cfg0 stA sampleScore).2
      sampleScore rfl [ProducerCall.putCall 1 solP1, ProducerCall.sealCall sampleScore]⟩

/-- Claim C4: at the end of verification, the candidate is promoted
(`finalize_correct` applied to the kill-cleared tracker state) iff the
recomputed final score equals the claimed score exactly and the
recomputed winner count equals the desired-target count exactly; on any
mismatch the tracker is killed and the scratch slot cleared instead. -/
theorem score_recomputation_equality (snap : Snapshot) (st : VerifierState)
    (claimed : ElectionScore) (desired : Nat)
    (hsc : st.verifyingSolutionScore = some claimed)
    (hdt : snap.desiredTargets = some desired) :
    (finalize_verification snap st =
        some (finalize_correct (VerifyingSolution_kill st) (final_score st).1) ↔
      ((final_score st).1 = claimed ∧ (final_score st).2 = desired)) ∧
    (¬ ((final_score st).1 = claimed ∧ (final_score st).2 = desired) →
      finalize_verification snap st = some (clear_invalid (VerifyingSolution_kill st))) := by
  refine ⟨⟨?_, ?_⟩, ?_⟩
  · intro h
    by_contra hcond
    simp only [finalize_verification, hsc, hdt, if_neg hcond] at h
    have heq := Option.some.inj h
    have hv1 : (clear_invalid (VerifyingSolution_kill st)).queuedValidVariant =
        st.queuedValidVariant := (clear_invalid_fields _).2.2.2.2
    have hv2 : (finalize_correct (VerifyingSolution_kill st)
        (final_score st).1).queuedValidVariant = st.queuedValidVariant.other :=
      finalize_correct_variant _ _
    rw [heq, hv2] at hv1
    exact valid_other_ne st.queuedValidVariant hv1
  · intro hcond
    simp only [finalize_verification, hsc, hdt, if_pos hcond]
  · intro hcond
    simp only [finalize_verification, hsc, hdt, if_neg hcond]

/-- Witness for C4 at a concrete finalization-ready state whose recomputed
score and winner count match the claim. -/
theorem score_recomputation_equality_witness :
    stFin.verifyingSolutionScore = some ⟨10, 10, 100⟩ ∧
    snapFin.desiredTargets = some 1 ∧
    ((finalize_verification snapFin stFin =
        some (finalize_correct (VerifyingSolution_kill stFin) (final_score stFin).1) ↔
      ((final_score stFin).1 = ⟨10, 10, 100⟩ ∧ (final_score stFin).2 = 1)) ∧
    (¬ ((final_score stFin).1 = ⟨10, 10, 100⟩ ∧ (final_score stFin).2 = 1) →
      finalize_verification snapFin stFin =
        some (clear_invalid (VerifyingSolution_kill stFin)))) :=
  ⟨rfl, rfl, score_recomputation_equality snapFin stFin ⟨10, 10, 100⟩ 1 rfl rfl⟩

/-- Claim C9: during a tick in the verifying state, a page absent from the
tracker's page storage is treated as the empty default solution and
fed to the feasibility checker — and on an available snapshot the
empty solution passes the checker with empty supports, so the
candidate is not errored out or discarded. -/
theorem missing_page_defaults (snap : Snapshot) (st : VerifierState) (cur : Nat)
    (hp : st.verifyingSolutionPage = some cur)
    (hm : mget st.verifyingSolutionStorage cur = none) :
    tick snap st = process_page snap st cur defaultSolution ∧
    (∀ ts vs, snap.targets = some ts → mget snap.voters cur = some vs →
      feasibility_check_page_inner snap defaultSolution cur = Except.ok []) := by
  constructor
  · simp [tick, hp, hm]
  · intro ts vs hts hvs
    simp [feasibility_check_page_inner, hts, hvs, defaultSolution, unique_targets,
      sortNat, dedupAdj, lookup_winners, into_assignment, check_assignments,
      ratio_to_staked_normalized, to_supports, add_all_edges]

/-- Witness for C9: a sealed tracker whose cursor points at the
never-submitted page 1 of `snap0`. -/
theorem missing_page_defaults_witness :
    stC9.verifyingSolutionPage = some 1 ∧
    mget stC9.verifyingSolutionStorage 1 = none ∧
    (tick snap0 stC9 = process_page snap0 stC9 1 defaultSolution ∧
      (∀ ts vs, snap0.targets = some ts → mget snap0.voters 1 = some vs →
        feasibility_check_page_inner snap0 defaultSolution 1 = Except.ok [])) :=
  ⟨rfl, rfl, missing_page_defaults snap0 stC9 1 rfl rfl⟩

theorem inv_step (cfg : Config) (snap : Snapshot) (st st' : VerifierState)
    (hinv : st.verifyingSolutionPage.isSome = true → st.verifyingSolutionScore.isSome = true)
    (h : Step cfg snap st st') :
    st'.verifyingSolutionPage.isSome = true → st'.verifyingSolutionScore.isSome = true := by
  cases h with
  | put_page_step idx psol =>
    unfold put_page
    split
    · exact hinv
    · intro hp
      exact hinv hp
  | seal_step claimed =>
    by_cases hex : VerifyingSolution_exists st
    · simp only [seal_unverified_solution, if_pos hex]
      exact hinv
    · cases hq2 : ensure_score_quality cfg st claimed with
      | error e =>
        simp only [seal_unverified_solution, if_neg hex, hq2]
        intro hp
        simp [VerifyingSolution_kill] at hp
      | ok u =>
        simp only [seal_unverified_solution, if_neg hex, hq2]
        intro _
        simp
  | tick_step =>
    rename_i htick
    rcases tick_cases htick with ⟨hpn, heq⟩ | ⟨cur, e, hp, hf, heq⟩ |
      ⟨n, sup, hp, hf, heq⟩ | ⟨sup, cl, de, hp, hf, hs, hd, hfin⟩
    · subst heq
      exact hinv
    · subst heq
      intro hpg
      rw [(clear_invalid_fields _).2.1] at hpg
      simp [VerifyingSolution_kill] at hpg
    · subst heq
      intro _
      have h2 := hinv (by rw [hp]; rfl)
      simpa [(set_invalid_page_verifying st (n + 1) sup).2.2.1] using h2
    · rcases hfin with ⟨_, _, heq⟩ | ⟨_, heq⟩ <;> subst heq <;> intro hpg <;> exfalso
      · rw [(finalize_correct_fields _ _).2.1] at hpg
        simp [VerifyingSolution_kill] at hpg
      · rw [(clear_invalid_fields _).2.1] at hpg
        simp [VerifyingSolution_kill] at hpg
  | kill_step =>
    intro hp
    simp [VerifyingSolution_kill] at hp

/-- Claim C10: in every state reachable from genesis by `submit_page`,
`seal`, `tick` and `kill`, a set verification cursor implies a set
claimed score; hence the `get_score().unwrap()` inside
`finalize_verification` (reached only while the cursor exists) never
panics. -/
theorem get_score_unwrap_safe (cfg : Config) (snap : Snapshot) (st : VerifierState)
    (h : Reachable cfg snap initialState st) :
    st.verifyingSolutionPage.isSome = true → st.verifyingSolutionScore.isSome = true := by
  induction h with
  | refl =>
    intro hp
    simp [initialState] at hp
  | tail st2 st3 h1 h2 ih =>
    exact inv_step cfg snap st2 st3 ih h2

/-- Witness for C10: the two-step run submit page 0 then seal, after which
the cursor is set and so is the score. -/
theorem get_score_unwrap_safe_witness :
    (seal_unverified_solution cfg0 stA sampleScore).2.verifyingSolutionPage.isSome = true ∧
    (seal_unverified_solution cfg0 stA sampleScore).2.verifyingSolutionScore.isSome = true :=
  ⟨rfl,
    get_score_unwrap_safe cfg0 snap0 (seal_unverified_solution cfg0 stA sampleScore).2
      (Reachable.tail _ _ _
        (Reachable.tail _ _ _ (Reachable.refl _) (Step.put_page_step initialState 0 sol0))
        (Step.seal_step stA sampleScore))
      rfl⟩

theorem queued_page_finalize (s : VerifierState) (score : ElectionScore) (idx : Nat) :
    get_queued_solution_page (finalize_correct s score) idx = get_invalid_page s idx := by
  unfold finalize_correct clear_invalid get_queued_solution_page get_invalid_page
    valid_variant invalid_variant
  cases s.queuedValidVariant <;> simp [ValidSolution.other]

theorem get_invalid_page_kill (s : VerifierState) (idx : Nat) :
    get_invalid_page (VerifyingSolution_kill s) idx = get_invalid_page s idx := rfl

/-- Claim C1: for every single transition (page submission, seal, tick, or
tracker kill), the consumer-facing readers `queued_solution` and
`get_queued_solution_page` either see exactly what they saw before the
transition, or — only when the transition is the finalizing tick that
promotes a fully verified candidate — they see exactly the scratch
slot's content as completed by that candidate's last page, with the
recomputed score; no mixture of old valid pages and candidate pages is
ever observable. -/
theorem atomic_promotion (cfg : Config) (snap : Snapshot) (st st' : VerifierState)
    (h : Step cfg snap st st') :
    ReadersEq st st' ∨
    (∃ cur sup,
      (∀ idx, get_queued_solution_page st' idx =
        get_invalid_page (set_invalid_page st cur sup) idx) ∧
      queued_solution st' = some (final_score (set_invalid_page st cur sup)).1) := by
  cases h with
  | put_page_step idx psol => exact Or.inl (readers_put _ idx psol)
  | seal_step claimed => exact Or.inl (readers_seal cfg _ claimed)
  | kill_step => exact Or.inl (readers_kill _)
  | tick_step =>
    rename_i htick
    rcases tick_cases htick with ⟨hpn, heq⟩ | ⟨cur, e, hp, hf, heq⟩ |
      ⟨n, sup, hp, hf, heq⟩ | ⟨sup, cl, de, hp, hf, hs, hd, hfin⟩
    · subst heq
      exact Or.inl (readers_refl _)
    · subst heq
      exact Or.inl (readers_trans (readers_kill _) (readers_clear_invalid _))
    · subst heq
      exact Or.inl (readers_trans (readers_set_invalid _ (n + 1) sup)
        (readers_page_update _ _))
    · rcases hfin with ⟨h1, h2, heq⟩ | ⟨hne, heq⟩
      · subst heq
        refine Or.inr ⟨0, sup, ?_, ?_⟩
        · intro idx
          rw [queued_page_finalize, get_invalid_page_kill]
        · exact (finalize_correct_fields _ _).2.2.2
      · subst heq
        exact Or.inl (readers_trans (readers_set_invalid _ 0 sup)
          (readers_trans (readers_kill _) (readers_clear_invalid _)))

/-- Witness for C1 at a concrete page-submission step, which leaves the
readers' view unchanged. -/
theorem atomic_promotion_witness :
    ReadersEq initialState (put_page initialState 0 sol0).2 ∨
    (∃ cur sup,
      (∀ idx, get_queued_solution_page (put_page initialState 0 sol0).2 idx =
        get_invalid_page (set_invalid_page initialState cur sup) idx) ∧
      queued_solution (put_page initialState 0 sol0).2 =
        some (final_score (set_invalid_page initialState cur sup)).1) :=
  atomic_promotion cfg0 snap0 initialState (put_page initialState 0 sol0).2
    (Step.put_page_step initialState 0 sol0)

theorem tick_dead {snap : Snapshot} {st : VerifierState}
    (h : st.verifyingSolutionPage = none) : tick snap st = some st := by
  unfold tick
  rw [h]

theorem iterate_dead {snap : Snapshot} {st : VerifierState}
    (h : st.verifyingSolutionPage = none) :
    ∀ n, iterate_ticks snap n st = some st := by
  intro n
  induction n with
  | zero => rfl
  | succ n ih =>
    unfold iterate_ticks
    rw [tick_dead h]
    exact ih

theorem tick_alive_readers {snap : Snapshot} {st st' : VerifierState}
    (h : tick snap st = some st')
    (ha : st'.verifyingSolutionPage.isSome = true) : ReadersEq st st' := by
  rcases tick_cases h with ⟨hpn, heq⟩ | ⟨cur, e, hp, hf, heq⟩ |
    ⟨n, sup, hp, hf, heq⟩ | ⟨sup, cl, de, hp, hf, hs, hd, hfin⟩
  · subst heq
    exact readers_refl _
  · subst heq
    exfalso
    rw [(clear_invalid_fields _).2.1] at ha
    simp [VerifyingSolution_kill] at ha
  · subst heq
    exact readers_trans (readers_set_invalid _ (n + 1) sup) (readers_page_update _ _)
  · exfalso
    rcases hfin with ⟨_, _, heq⟩ | ⟨_, heq⟩ <;> subst heq
    · rw [(finalize_correct_fields _ _).2.1] at ha
      simp [VerifyingSolution_kill] at ha
    · rw [(clear_invalid_fields _).2.1] at ha
      simp [VerifyingSolution_kill] at ha

theorem iterate_alive_readers {snap : Snapshot} :
    ∀ (n : Nat) (st st' : VerifierState), iterate_ticks snap n st = some st' →
      st'.verifyingSolutionPage.isSome = true → ReadersEq st st' := by
  intro n
  induction n with
  | zero =>
    intro st st' h ha
    cases Option.some.inj h
    exact readers_refl _
  | succ n ih =>
    intro st st' h ha
    unfold iterate_ticks at h
    cases ht : tick snap st with
    | none =>
      simp only [ht] at h
      exact Option.noConfusion h
    | some s1 =>
      simp only [ht] at h
      cases hs1 : s1.verifyingSolutionPage with
      | none =>
        rw [iterate_dead hs1 n] at h
        cases Option.some.inj h
        rw [hs1] at ha
        exact Bool.noConfusion ha
      | some p =>
        exact readers_trans (tick_alive_readers ht (by rw [hs1]; rfl)) (ih s1 st' h ha)

theorem apply_puts_readers (puts : List (Nat × PartialSolution)) :
    ∀ st, ReadersEq st (apply_puts st puts) := by
  induction puts with
  | nil => intro st; exact readers_refl st
  | cons p rest ih =>
    intro st
    exact readers_trans (readers_put st p.1 p.2) (ih (put_page st p.1 p.2).2)

theorem clear_invalid_backings (s : VerifierState) :
    (clear_invalid s).queuedSolutionBackings = [] := by
  unfold clear_invalid invalid_variant
  cases s.queuedValidVariant <;> rfl

theorem get_invalid_page_clear (s : VerifierState) (idx : Nat) :
    get_invalid_page (clear_invalid s) idx = none := by
  unfold clear_invalid get_invalid_page invalid_variant
  cases s.queuedValidVariant <;> simp [ValidSolution.other, mget]

/-- Claim C2: for any candidate — any pages submitted on top of any
starting state, then successfully sealed, then advanced any number of
ticks — if the feasibility check of the page at the cursor fails during
the next tick, then after that tick the readers' view (every valid-slot
page and the queued score) is identical to what it was before the
candidate's first `submit_page`, and the verifying tracker, the
invalid slot, and the backings are all empty. -/
theorem exact_rederivation (cfg : Config) (snap : Snapshot) (st0 : VerifierState)
    (puts : List (Nat × PartialSolution)) (claimed : ElectionScore) (k cur : Nat)
    (e : FeasibilityError) (st3 : VerifierState)
    (hseal : (seal_unverified_solution cfg (apply_puts st0 puts) claimed).1 = true)
    (hit : iterate_ticks snap k
      (seal_unverified_solution cfg (apply_puts st0 puts) claimed).2 = some st3)
    (hpage : st3.verifyingSolutionPage = some cur)
    (hfail : feasibility_check_page_inner snap
      ((mget st3.verifyingSolutionStorage cur).getD defaultSolution) cur =
        Except.error e) :
    tick snap st3 = some (clear_invalid (VerifyingSolution_kill st3)) ∧
    ReadersEq st0 (clear_invalid (VerifyingSolution_kill st3)) ∧
    (clear_invalid (VerifyingSolution_kill st3)).verifyingSolutionStorage = [] ∧
    (clear_invalid (VerifyingSolution_kill st3)).verifyingSolutionPage = none ∧
    (clear_invalid (VerifyingSolution_kill st3)).verifyingSolutionScore = none ∧
    (clear_invalid (VerifyingSolution_kill st3)).queuedSolutionBackings = [] ∧
    (∀ idx, get_invalid_page (clear_invalid (VerifyingSolution_kill st3)) idx = none) := by
  have htick : tick snap st3 = some (clear_invalid (VerifyingSolution_kill st3)) := by
    simp only [tick, hpage, process_page, hfail]
  have hre : ReadersEq st0 (clear_invalid (VerifyingSolution_kill st3)) := by
    refine readers_trans (apply_puts_readers puts st0)
      (readers_trans (readers_seal cfg (apply_puts st0 puts) claimed)
        (readers_trans (iterate_alive_readers k _ st3 hit (by rw [hpage]; rfl))
          (readers_trans (readers_kill st3) (readers_clear_invalid _))))
  refine ⟨htick, hre, ?_, ?_, ?_, clear_invalid_backings _, get_invalid_page_clear _⟩
  · rw [(clear_invalid_fields _).1]
    rfl
  · rw [(clear_invalid_fields _).2.1]
    rfl
  · rw [(clear_invalid_fields _).2.2.1]
    rfl

/-- Witness for C2: a one-page candidate whose only page names an
out-of-range target index; the first tick rejects it and restores the
initial (empty) queued view. -/
theorem exact_rederivation_witness :
    (seal_unverified_solution cfg0 (apply_puts initialState [(2, solBadWinner)])
        sampleScore).1 = true ∧
    (tick snap0 stC2Sealed = some (clear_invalid (VerifyingSolution_kill stC2Sealed)) ∧
      ReadersEq initialState (clear_invalid (VerifyingSolution_kill stC2Sealed)) ∧
      (clear_invalid (VerifyingSolution_kill stC2Sealed)).verifyingSolutionStorage = [] ∧
      (clear_invalid (VerifyingSolution_kill stC2Sealed)).verifyingSolutionPage = none ∧
      (clear_invalid (VerifyingSolution_kill stC2Sealed)).verifyingSolutionScore = none ∧
      (clear_invalid (VerifyingSolution_kill stC2Sealed)).queuedSolutionBackings = [] ∧
      (∀ idx, get_invalid_page (clear_invalid (VerifyingSolution_kill stC2Sealed)) idx =
        none)) :=
  ⟨rfl,
    exact_rederivation cfg0 snap0 initialState [(2, solBadWinner)] sampleScore 0 2
      FeasibilityError.invalidWinner stC2Sealed rfl rfl rfl rfl⟩

theorem find_voter_sound :
    ∀ (vs : List Voter) (w : Nat) (i : Nat), find_voter_index vs w = some i →
      ∃ e, vs.get? i = some e ∧ e.who = w := by
  intro vs
  induction vs with
  | nil =>
    intro w i h
    exact Option.noConfusion h
  | cons v rest ih =>
    intro w i h
    unfold find_voter_index at h
    by_cases hw : v.who = w
    · rw [if_pos hw] at h
      cases Option.some.inj h
      exact ⟨v, rfl, hw⟩
    · rw [if_neg hw] at h
      cases hfi : find_voter_index rest w with
      | none =>
        rw [hfi] at h
        exact Option.noConfusion h
      | some j =>
        rw [hfi] at h
        simp only [Option.map] at h
        cases Option.some.inj h
        obtain ⟨e, he, hew⟩ := ih w j hfi
        exact ⟨e, by simpa using he, hew⟩

theorem find_voter_complete :
    ∀ (vs : List Voter) (w : Nat) (e : Voter), e ∈ vs → e.who = w →
      (find_voter_index vs w).isSome = true := by
  intro vs
  induction vs with
  | nil =>
    intro w e he _
    cases he
  | cons v rest ih =>
    intro w e he hw
    unfold find_voter_index
    by_cases hvw : v.who = w
    · rw [if_pos hvw]
      rfl
    · rw [if_neg hvw]
      cases he with
      | head => exact absurd hw hvw
      | tail _ htail =>
        have := ih w e htail hw
        cases hfi : find_voter_index rest w with
        | none => rw [hfi] at this; exact Bool.noConfusion this
        | some j => rfl

theorem into_assignment_who (vs : List Voter) (ts : List Nat) :
    ∀ (votes : List (Nat × List (Nat × Nat))) (assigns : List Assignment),
      into_assignment vs ts votes = Except.ok assigns →
      ∀ a ∈ assigns, ∃ v, v ∈ vs ∧ a.who = v.who := by
  intro votes
  induction votes with
  | nil =>
    intro assigns h a ha
    cases Except.ok.inj h
    cases ha
  | cons vote rest ih =>
    intro assigns h a ha
    unfold into_assignment at h
    cases hv : vs.get? vote.1 with
    | none => rw [hv] at h; exact Except.noConfusion h
    | some v =>
      rw [hv] at h
      cases hd : decode_distribution ts vote.2 with
      | error e => rw [hd] at h; exact Except.noConfusion h
      | ok dist =>
        rw [hd] at h
        cases hr : into_assignment vs ts rest with
        | error e => rw [hr] at h; exact Except.noConfusion h
        | ok rest2 =>
          rw [hr] at h
          cases Except.ok.inj h
          cases ha with
          | head => exact ⟨v, List.get?_mem hv, rfl⟩
          | tail _ htail => exact ih rest2 hr a htail

theorem check_assignments_invalid_vote (vs : List Voter) :
    ∀ (assigns : List Assignment),
      (∀ a ∈ assigns, ∃ v, v ∈ vs ∧ a.who = v.who) →
      (∃ a ∈ assigns, ∃ idx entry, find_voter_index vs a.who = some idx ∧
        vs.get? idx = some entry ∧
        ∃ p ∈ a.distribution, entry.targets.contains p.1 = false) →
      check_assignments vs assigns = Except.error FeasibilityError.invalidVote := by
  intro assigns
  induction assigns with
  | nil =>
    intro _ hstray
    obtain ⟨a, ha, _⟩ := hstray
    cases ha
  | cons a rest ih =>
    intro hwho hstray
    obtain ⟨v, hvmem, hwa⟩ := hwho a (List.mem_cons_self a rest)
    have hfs : (find_voter_index vs a.who).isSome = true :=
      find_voter_complete vs a.who v hvmem hwa.symm
    cases hidx : find_voter_index vs a.who with
    | none => rw [hidx] at hfs; exact Bool.noConfusion hfs
    | some idx =>
      obtain ⟨entry, hentry, hentry_who⟩ := find_voter_sound vs a.who idx hidx
      unfold check_assignments
      simp only [assignment_ok, hidx, hentry]
      by_cases hany : a.distribution.any (fun p => !(entry.targets.contains p.1)) = true
      · rw [if_pos hany]
      · rw [if_neg hany]
        rcases hstray with ⟨a2, ha2, idx2, entry2, hidx2, hentry2, p, hp, hpc⟩
        cases ha2 with
        | head =>
          exfalso
          rw [hidx] at hidx2
          cases Option.some.inj hidx2
          rw [hentry] at hentry2
          cases Option.some.inj hentry2
          exact hany (List.any_eq_true.mpr ⟨p, hp, by rw [hpc]; rfl⟩)
        | tail _ htail =>
          exact ih (fun a3 ha3 => hwho a3 (List.mem_cons_of_mem a ha3))
            ⟨a2, htail, idx2, entry2, hidx2, hentry2, p, hp, hpc⟩

/-- Claim C8: for a page whose snapshots are available and whose winner and
assignment indices decode correctly, if any decoded assignment
distributes weight to a target that is not among that voter's eligible
targets recorded in the snapshot, the feasibility check of that page
returns `InvalidVote` (so no support structure is produced). -/
theorem invalid_vote_rejection (snap : Snapshot) (psol : PartialSolution) (page : Nat)
    (ts : List Nat) (vs : List Voter) (winners : List Nat) (assigns : List Assignment)
    (hts : snap.targets = some ts)
    (hvs : mget snap.voters page = some vs)
    (hw : lookup_winners ts (unique_targets psol) = Except.ok winners)
    (ha : into_assignment vs ts psol.votes = Except.ok assigns)
    (hstray : ∃ a ∈ assigns, ∃ idx entry, find_voter_index vs a.who = some idx ∧
      vs.get? idx = some entry ∧
      ∃ p ∈ a.distribution, entry.targets.contains p.1 = false) :
    feasibility_check_page_inner snap psol page =
      Except.error FeasibilityError.invalidVote := by
  have hchk := check_assignments_invalid_vote vs assigns
    (into_assignment_who vs ts psol.votes assigns ha) hstray
  simp only [feasibility_check_page_inner, hts, hvs, hw, ha, hchk]

/-- Witness for C8: on `snap0`, the page-0 voter 1 is eligible only for
target 100, yet `solStray` sends its weight to target 200. -/
theorem invalid_vote_rejection_witness :
    snap0.targets = some [100, 200] ∧
    (∃ a ∈ [Assignment.mk 1 [(200, 1000000000)]],
      ∃ idx entry, find_voter_index [⟨1, 10, [100]⟩, ⟨2, 10, [100, 200]⟩] a.who = some idx ∧
        [Voter.mk 1 10 [100], Voter.mk 2 10 [100, 200]].get? idx = some entry ∧
        ∃ p ∈ a.distribution, entry.targets.contains p.1 = false) ∧
    feasibility_check_page_inner snap0 solStray 0 =
      Except.error FeasibilityError.invalidVote :=
  ⟨rfl,
    ⟨Assignment.mk 1 [(200, 1000000000)], List.mem_cons_self _ _, 0, Voter.mk 1 10 [100],
      rfl, rfl, (200, 1000000000), List.mem_cons_self _ _, rfl⟩,
    invalid_vote_rejection snap0 solStray 0 [100, 200]
      [⟨1, 10, [100]⟩, ⟨2, 10, [100, 200]⟩] [200] [Assignment.mk 1 [(200, 1000000000)]]
      rfl rfl rfl rfl
      ⟨Assignment.mk 1 [(200, 1000000000)], List.mem_cons_self _ _, 0, Voter.mk 1 10 [100],
        rfl, rfl, (200, 1000000000), List.mem_cons_self _ _, rfl⟩⟩
